import Mathlib

/-!
# gosemble: DispatchOutcome codec and the testable module

A shallow embedding of

* `primitives/types/dispatch_outcome.go` (`NewDispatchOutcome`, `DispatchOutcome.Encode`,
  `DecodeDispatchOutcome`, `DispatchOutcome.Bytes`), and
* `frame/testable/module/module.go` (`NewTestingModule`, `TestableModule.Functions`,
  `TestableModule.PreDispatch`, `TestableModule.ValidateUnsigned`).

Conventions.

* A `*bytes.Buffer` is the list of its unread bytes: writing appends at the end, reading
  takes from the front.  A function that mutates a buffer takes the buffer and returns the
  buffer after the call.
* A Go function that may panic returns `Go α = Except Panic α`; `Except.ok` is a normal
  return, `Except.error` is a panic.  The Go functions embedded here have no error result,
  so a panic is their only way to fail.
* `DispatchError`, its `Encode` method and `DecodeDispatchError` are declared elsewhere in
  the package; they are taken as a parameter (`DispatchErrorCodec`).
* The types and constructors of the packages `primitives`, `dispatchables` and `testable`
  that `module.go` uses are declared elsewhere; they are taken as a parameter
  (`Primitives`).
* A method of `TestableModule` returns its results together with the module after the
  call, so that "the call changes nothing" is a statement about the code.
-/

namespace Gosemble

/-- The Go type `sc.U8` (and `byte`): an unsigned 8-bit integer. -/
abbrev sc.U8 := Fin 256

/-- The unread content of a `*bytes.Buffer`. -/
abbrev Buffer := List sc.U8

/-- The ways a call can panic. -/
inductive Panic where
  /-- `panic("text")` with a string literal. -/
  | message (text : String)
  /-- The runtime error of indexing a slice out of range. -/
  | indexOutOfRange
  /-- The runtime error of calling a method on a nil interface value. -/
  | nilDereference
  /-- The decoder could not read the bytes it needs (end of buffer). -/
  | underflow
  deriving DecidableEq, Repr

/-- A Go computation: a normal return or a panic. -/
abbrev Go (α : Type) := Except Panic α

/-- Modelled from the spec: `sc.U8.Encode` of the goscale library, which is not among the
sources. It "writes the discriminant as a single byte": the byte is appended to the
buffer. -/
def sc.U8.Encode (value : sc.U8) (buffer : Buffer) : Go Buffer :=
  pure (buffer ++ [value])

/-- Modelled from the spec: `sc.DecodeU8` of the goscale library, which is not among the
sources. It "reads one byte" from the front of the buffer; on an empty buffer it "fails
with an underflow/decode error". The function has no error result, so the failure is a
panic. -/
def sc.DecodeU8 (buffer : Buffer) : Go (sc.U8 × Buffer) :=
  match buffer with
  | [] => throw Panic.underflow
  | b :: rest => pure (b, rest)

/-- The parameter standing for the `DispatchError` type of the package: its `Encode`
method (which writes into a buffer) and the package function `DecodeDispatchError`
(which reads from one). Either may panic. -/
structure DispatchErrorCodec (DispatchError : Type) where
  /-- The method `DispatchError.Encode(buffer)`: the buffer after the call. -/
  Encode : DispatchError → Buffer → Go Buffer
  /-- The function `DecodeDispatchError(buffer)`: the value and the buffer after the call. -/
  DecodeDispatchError : Buffer → Go (DispatchError × Buffer)

/-- A value of the interface type `sc.Encodable`, by dynamic type: the nil interface, a
`sc.Empty`, a `DispatchError`, or a value of any other type implementing the interface
(identified by a tag for its type, with the bytes its `Encode` writes). -/
inductive sc.Encodable (DispatchError : Type) where
  | nil
  | Empty
  | DispatchError (e : DispatchError)
  | other (typeTag : Nat) (encoding : List sc.U8)

/-- What `reflect.TypeOf` tells apart here. -/
inductive GoType where
  | Empty
  | DispatchError
  | other (typeTag : Nat)
  deriving DecidableEq, Repr

/-- The function `reflect.TypeOf`: the dynamic type of an interface value, `none` (the nil
`reflect.Type`) for the nil interface. -/
def TypeOf {DispatchError : Type} : sc.Encodable DispatchError → Option GoType
  | .nil => none
  | .Empty => some GoType.Empty
  | .DispatchError _ => some GoType.DispatchError
  | .other t _ => some (GoType.other t)

/-- Dynamic dispatch of `value.Encode(buffer)` on an `sc.Encodable`: `sc.Empty` writes
nothing, a `DispatchError` uses its own `Encode`. -/
def sc.Encodable.Encode {DispatchError : Type} (codec : DispatchErrorCodec DispatchError)
    (value : sc.Encodable DispatchError) (buffer : Buffer) : Go Buffer :=
  match value with
  | .nil => throw Panic.nilDereference
  | .Empty => pure buffer
  | .DispatchError e => codec.Encode e buffer
  | .other _ encoding => pure (buffer ++ encoding)

/-- The Go type `sc.VaryingData`, a slice of `sc.Encodable`. -/
abbrev sc.VaryingData (DispatchError : Type) := List (sc.Encodable DispatchError)

/-- Modelled from the spec: `sc.NewVaryingData` of the goscale library, which is not among
the sources. It builds the variant instance holding the given values in order; the
discriminant has to fit "a small unsigned integer", so more than 255 values panic. -/
def sc.NewVaryingData {DispatchError : Type} (values : List (sc.Encodable DispatchError)) :
    Go (sc.VaryingData DispatchError) :=
  if values.length > 255 then throw (Panic.message "exceeds uint8 length") else pure values

/-- The Go type `DispatchOutcome`, declared as `sc.VaryingData`. -/
abbrev DispatchOutcome (DispatchError : Type) := sc.VaryingData DispatchError

/-- The function `NewDispatchOutcome`: a type switch on the payload. -/
def NewDispatchOutcome {DispatchError : Type} (value : sc.Encodable DispatchError) :
    Go (DispatchOutcome DispatchError) :=
  match value with
  | .DispatchError _ => sc.NewVaryingData [value]
  | .Empty | .nil => sc.NewVaryingData [sc.Encodable.Empty]
  | _ => throw (Panic.message "invalid DispatchOutcome option")

/-- The method `DispatchOutcome.Encode`: the buffer after the call. -/
def DispatchOutcome.Encode {DispatchError : Type} (codec : DispatchErrorCodec DispatchError)
    (o : DispatchOutcome DispatchError) (buffer : Buffer) : Go Buffer :=
  match o with
  | [] => throw Panic.indexOutOfRange
  | value :: _ =>
    match TypeOf value with
    | some GoType.Empty => sc.U8.Encode 0 buffer
    | some GoType.DispatchError => do
        let buffer ← sc.U8.Encode 1 buffer
        value.Encode codec buffer
    | _ => throw (Panic.message "invalid DispatchOutcome type")

/-- The function `DecodeDispatchOutcome`: the outcome and the buffer after the call. -/
def DecodeDispatchOutcome {DispatchError : Type} (codec : DispatchErrorCodec DispatchError)
    (buffer : Buffer) : Go (DispatchOutcome DispatchError × Buffer) := do
  let (b, buffer) ← sc.DecodeU8 buffer
  if b = 0 then
    let o ← NewDispatchOutcome sc.Encodable.Empty
    pure (o, buffer)
  else if b = 1 then
    let (value, buffer) ← codec.DecodeDispatchError buffer
    let o ← NewDispatchOutcome (sc.Encodable.DispatchError value)
    pure (o, buffer)
  else
    throw (Panic.message "invalid DispatchOutcome type")

/-- Modelled from the spec: `sc.EncodedBytes` of the goscale library, which is not among
the sources. It encodes into a fresh, empty buffer and returns the bytes written. -/
def sc.EncodedBytes (encode : Buffer → Go Buffer) : Go (List sc.U8) :=
  encode []

/-- The method `DispatchOutcome.Bytes`. -/
def DispatchOutcome.Bytes {DispatchError : Type} (codec : DispatchErrorCodec DispatchError)
    (o : DispatchOutcome DispatchError) : Go (List sc.U8) :=
  sc.EncodedBytes (o.Encode codec)

/-- A concrete `DispatchError` for evaluating the definitions: an error that is a single
byte, written as that byte and read back with `sc.DecodeU8`. -/
def byteCodec : DispatchErrorCodec sc.U8 where
  Encode := fun e buffer => sc.U8.Encode e buffer
  DecodeDispatchError := fun buffer => sc.DecodeU8 buffer

/-- The Go type `sc.Empty`, a struct without fields; `sc.Empty.mk` is `sc.Empty{}`. -/
structure sc.Empty where
  deriving DecidableEq, Repr

/-- A Go map: its entries, one per key. -/
structure GoMap (K V : Type) where
  entries : List (K × V)

/-- The call `make(map[K]V)`: the empty map. -/
def GoMap.make {K V : Type} : GoMap K V :=
  ⟨[]⟩

/-- The assignment `m[k] = v`: the entry of `k` is replaced or added. -/
def GoMap.set {K V : Type} [DecidableEq K] (m : GoMap K V) (k : K) (v : V) : GoMap K V :=
  ⟨(k, v) :: m.entries.filter (fun p => decide (p.1 ≠ k))⟩

/-- The lookup `v, ok := m[k]`: `none` when the key is absent. -/
def GoMap.get {K V : Type} [DecidableEq K] (m : GoMap K V) (k : K) : Option V :=
  (m.entries.find? (fun p => decide (p.1 = k))).map Prod.snd

/-- The call `len(m)`: the number of entries. -/
def GoMap.len {K V : Type} (m : GoMap K V) : Nat :=
  m.entries.length

/-- The declarations of the packages `primitives`, `dispatchables` and `testable` that
`module.go` uses and that are declared elsewhere: opaque value types, the constant
`testable.FunctionTestIndex` and the values the constructors return. -/
structure Primitives where
  /-- The type `primitives.Call`. -/
  Call : Type
  /-- The type `primitives.TransactionSource`. -/
  TransactionSource : Type
  /-- The type `primitives.ValidTransaction`. -/
  ValidTransaction : Type
  /-- The type `primitives.UnknownTransaction`. -/
  UnknownTransaction : Type
  /-- The non-nil values of the type `primitives.TransactionValidityError`. -/
  TransactionValidityError : Type
  /-- The composite literal `primitives.ValidTransaction{}`. -/
  emptyValidTransaction : ValidTransaction
  /-- The value of `primitives.NewUnknownTransactionNoUnsignedValidator()`. -/
  NewUnknownTransactionNoUnsignedValidator : UnknownTransaction
  /-- The constructor `primitives.NewTransactionValidityError` on an `UnknownTransaction`. -/
  NewTransactionValidityError : UnknownTransaction → TransactionValidityError
  /-- The constant `testable.FunctionTestIndex`. -/
  FunctionTestIndex : sc.U8
  /-- The value of `dispatchables.NewTestCall(nil)`. -/
  NewTestCall : Call

/-- The struct `TestableModule`. -/
structure TestableModule (P : Primitives) where
  functions : GoMap sc.U8 P.Call

/-- The function `NewTestingModule`. -/
def NewTestingModule (P : Primitives) : TestableModule P :=
  let functions : GoMap sc.U8 P.Call := GoMap.make
  let functions := functions.set P.FunctionTestIndex P.NewTestCall
  { functions := functions }

/-- The method `TestableModule.Functions`: the map returned, and the module after the
call. -/
def TestableModule.Functions {P : Primitives} (tm : TestableModule P) :
    GoMap sc.U8 P.Call × TestableModule P :=
  (tm.functions, tm)

/-- The method `TestableModule.PreDispatch`: the two results (`none` is the nil
`TransactionValidityError`), and the module after the call. -/
def TestableModule.PreDispatch {P : Primitives} (tm : TestableModule P) (_ : P.Call) :
    (sc.Empty × Option P.TransactionValidityError) × TestableModule P :=
  ((sc.Empty.mk, none), tm)

/-- The method `TestableModule.ValidateUnsigned`: the two results (`none` is the nil
`TransactionValidityError`), and the module after the call. -/
def TestableModule.ValidateUnsigned {P : Primitives} (tm : TestableModule P)
    (_ : P.TransactionSource) (_ : P.Call) :
    (P.ValidTransaction × Option P.TransactionValidityError) × TestableModule P :=
  ((P.emptyValidTransaction,
    some (P.NewTransactionValidityError P.NewUnknownTransactionNoUnsignedValidator)), tm)

/-- Concrete `primitives` declarations for evaluating the definitions: calls, sources and
error kinds are numbers, the test index is 255. -/
def natPrimitives : Primitives where
  Call := Nat
  TransactionSource := Nat
  ValidTransaction := List Nat
  UnknownTransaction := Nat
  TransactionValidityError := Nat × Nat
  emptyValidTransaction := []
  NewUnknownTransactionNoUnsignedValidator := 1
  NewTransactionValidityError := fun u => (1, u)
  FunctionTestIndex := 255
  NewTestCall := 7

/-- The assumption that `DecodeDispatchError` inverts `DispatchError.Encode`: on every
buffer content `pre`,
encoding `e` returns normally having appended some bytes to `pre`, and
`DecodeDispatchError` on a buffer holding exactly those bytes returns `e` and leaves
nothing unread. -/
def DispatchErrorCodec.Inverts {DispatchError : Type}
    (codec : DispatchErrorCodec DispatchError) : Prop :=
  ∀ (e : DispatchError) (pre : Buffer), ∃ bs : List sc.U8,
    codec.Encode e pre = Except.ok (pre ++ bs) ∧
    codec.DecodeDispatchError bs = Except.ok (e, [])

/-- The assumption that `DecodeDispatchError` consumes exactly what `DispatchError.Encode`
writes: on every buffer content `pre`, encoding `e` returns normally having appended some
bytes to `pre`, and `DecodeDispatchError` on a buffer holding those bytes followed by any
bytes `rest` returns `e` and leaves exactly `rest` unread. -/
def DispatchErrorCodec.ConsumesExactly {DispatchError : Type}
    (codec : DispatchErrorCodec DispatchError) : Prop :=
  ∀ (e : DispatchError) (pre : Buffer), ∃ bs : List sc.U8,
    codec.Encode e pre = Except.ok (pre ++ bs) ∧
    ∀ rest : Buffer, codec.DecodeDispatchError (bs ++ rest) = Except.ok (e, rest)

/-- The assumption that `DispatchError.Encode` only appends: every `e` has a byte string
that its `Encode` appends to the buffer, whatever the buffer already holds. -/
def DispatchErrorCodec.Appends {DispatchError : Type}
    (codec : DispatchErrorCodec DispatchError) : Prop :=
  ∀ e : DispatchError, ∃ bs : List sc.U8, ∀ pre : Buffer,
    codec.Encode e pre = Except.ok (pre ++ bs)

/-! ## Evaluation lemmas -/

theorem NewDispatchOutcome_Empty {DispatchError : Type} :
    NewDispatchOutcome (sc.Encodable.Empty : sc.Encodable DispatchError)
      = Except.ok [sc.Encodable.Empty] := rfl

theorem NewDispatchOutcome_nil {DispatchError : Type} :
    NewDispatchOutcome (sc.Encodable.nil : sc.Encodable DispatchError)
      = Except.ok [sc.Encodable.Empty] := rfl

theorem NewDispatchOutcome_DispatchError {DispatchError : Type} (e : DispatchError) :
    NewDispatchOutcome (sc.Encodable.DispatchError e)
      = Except.ok [sc.Encodable.DispatchError e] := rfl

theorem NewDispatchOutcome_other {DispatchError : Type} (t : Nat) (bs : List sc.U8) :
    NewDispatchOutcome (sc.Encodable.other t bs : sc.Encodable DispatchError)
      = Except.error (Panic.message "invalid DispatchOutcome option") := rfl

theorem Encode_success {DispatchError : Type} (codec : DispatchErrorCodec DispatchError)
    (buffer : Buffer) :
    DispatchOutcome.Encode codec [sc.Encodable.Empty] buffer = Except.ok (buffer ++ [0]) := rfl

theorem Encode_failure {DispatchError : Type} (codec : DispatchErrorCodec DispatchError)
    (e : DispatchError) (buffer : Buffer) :
    DispatchOutcome.Encode codec [sc.Encodable.DispatchError e] buffer
      = codec.Encode e (buffer ++ [1]) := rfl

theorem Decode_nil {DispatchError : Type} (codec : DispatchErrorCodec DispatchError) :
    DecodeDispatchOutcome codec [] = Except.error Panic.underflow := rfl

theorem Decode_zero {DispatchError : Type} (codec : DispatchErrorCodec DispatchError)
    (rest : Buffer) :
    DecodeDispatchOutcome codec (0 :: rest) = Except.ok ([sc.Encodable.Empty], rest) := rfl

theorem Decode_one {DispatchError : Type} (codec : DispatchErrorCodec DispatchError)
    (rest : Buffer) :
    DecodeDispatchOutcome codec (1 :: rest)
      = (codec.DecodeDispatchError rest).map
          (fun r => ([sc.Encodable.DispatchError r.1], r.2)) := by
  cases h : codec.DecodeDispatchError rest with
  | error p => simp [DecodeDispatchOutcome, sc.DecodeU8, h, bind, Except.bind, pure,
      Except.pure, Except.map]
  | ok r => simp [DecodeDispatchOutcome, sc.DecodeU8, h, bind, Except.bind, pure,
      Except.pure, Except.map, NewDispatchOutcome, sc.NewVaryingData]

theorem Decode_invalid {DispatchError : Type} (codec : DispatchErrorCodec DispatchError)
    (b : sc.U8) (rest : Buffer) (h0 : b ≠ 0) (h1 : b ≠ 1) :
    DecodeDispatchOutcome codec (b :: rest)
      = Except.error (Panic.message "invalid DispatchOutcome type") := by
  simp [DecodeDispatchOutcome, sc.DecodeU8, bind, Except.bind, pure, Except.pure, h0, h1,
    throw, throwThe, MonadExceptOf.throw]

theorem byteCodec_Inverts : byteCodec.Inverts :=
  fun e _ => ⟨[e], rfl, rfl⟩

theorem byteCodec_ConsumesExactly : byteCodec.ConsumesExactly :=
  fun e _ => ⟨[e], rfl, fun _ => rfl⟩

theorem byteCodec_Appends : byteCodec.Appends :=
  fun e => ⟨[e], fun _ => rfl⟩

theorem NewDispatchOutcome_shape {DispatchError : Type} (value : sc.Encodable DispatchError)
    (o : DispatchOutcome DispatchError) (h : NewDispatchOutcome value = Except.ok o) :
    o = [sc.Encodable.Empty] ∨ ∃ e : DispatchError, o = [sc.Encodable.DispatchError e] := by
  cases value with
  | nil =>
    rw [NewDispatchOutcome_nil] at h
    cases h
    exact Or.inl rfl
  | Empty =>
    rw [NewDispatchOutcome_Empty] at h
    cases h
    exact Or.inl rfl
  | DispatchError e =>
    rw [NewDispatchOutcome_DispatchError] at h
    cases h
    exact Or.inr ⟨e, rfl⟩
  | other t enc =>
    rw [NewDispatchOutcome_other] at h
    cases h

theorem DecodeDispatchOutcome_shape {DispatchError : Type}
    (codec : DispatchErrorCodec DispatchError) (buffer rest : Buffer)
    (o : DispatchOutcome DispatchError)
    (h : DecodeDispatchOutcome codec buffer = Except.ok (o, rest)) :
    o = [sc.Encodable.Empty] ∨ ∃ e : DispatchError, o = [sc.Encodable.DispatchError e] := by
  cases buffer with
  | nil =>
    rw [Decode_nil] at h
    cases h
  | cons b tail =>
    by_cases h0 : b = 0
    · subst h0
      rw [Decode_zero] at h
      cases h
      exact Or.inl rfl
    · by_cases h1 : b = 1
      · subst h1
        rw [Decode_one] at h
        cases hd : codec.DecodeDispatchError tail with
        | error p =>
          rw [hd] at h
          cases h
        | ok r =>
          rw [hd] at h
          cases h
          exact Or.inr ⟨r.1, rfl⟩
      · rw [Decode_invalid codec b tail h0 h1] at h
        cases h

/-! ## The DispatchOutcome codec -/

/-- C1. Round trip: when `DecodeDispatchError` inverts `DispatchError.Encode`, every
outcome `v` that `NewDispatchOutcome` returns (for whatever payload it accepts) is encoded
by `v.Encode` into some bytes, and `DecodeDispatchOutcome` on a buffer holding exactly
those bytes returns `v`, leaving nothing unread. -/
theorem DecodeDispatchOutcome_Encode_roundtrip {DispatchError : Type}
    (codec : DispatchErrorCodec DispatchError) (hinv : codec.Inverts)
    (value : sc.Encodable DispatchError) (v : DispatchOutcome DispatchError)
    (hv : NewDispatchOutcome value = Except.ok v) :
    ∃ bs : List sc.U8, v.Encode codec [] = Except.ok bs ∧
      DecodeDispatchOutcome codec bs = Except.ok (v, []) := by
  cases value with
  | nil =>
    rw [NewDispatchOutcome_nil] at hv
    cases hv
    exact ⟨[0], Encode_success codec [], Decode_zero codec []⟩
  | Empty =>
    rw [NewDispatchOutcome_Empty] at hv
    cases hv
    exact ⟨[0], Encode_success codec [], Decode_zero codec []⟩
  | DispatchError e =>
    rw [NewDispatchOutcome_DispatchError] at hv
    cases hv
    obtain ⟨bs, henc, hdec⟩ := hinv e [1]
    refine ⟨1 :: bs, ?_, ?_⟩
    · rw [Encode_failure]
      exact henc
    · rw [Decode_one, hdec]
      rfl
  | other t enc =>
    rw [NewDispatchOutcome_other] at hv
    cases hv

/-- The round trip of C1 at a concrete input: the failure outcome of the one-byte error 7,
whose encoding is `[1, 7]`. -/
theorem DecodeDispatchOutcome_Encode_roundtrip_witness :
    byteCodec.Inverts ∧
    NewDispatchOutcome (sc.Encodable.DispatchError (7 : sc.U8))
      = Except.ok [sc.Encodable.DispatchError 7] ∧
    DispatchOutcome.Encode byteCodec [sc.Encodable.DispatchError 7] [] = Except.ok [1, 7] ∧
    ∃ bs : List sc.U8,
      DispatchOutcome.Encode byteCodec [sc.Encodable.DispatchError 7] [] = Except.ok bs ∧
      DecodeDispatchOutcome byteCodec bs = Except.ok ([sc.Encodable.DispatchError 7], []) :=
  ⟨byteCodec_Inverts, rfl, rfl,
    DecodeDispatchOutcome_Encode_roundtrip byteCodec byteCodec_Inverts
      (sc.Encodable.DispatchError 7) [sc.Encodable.DispatchError 7] rfl⟩

/-- C2. Discriminant fidelity: the success outcome is `NewDispatchOutcome(sc.Empty{})` and
its `Encode` appends exactly the byte `0x00` to the buffer; for every `DispatchError` `e`,
`Encode` of `NewDispatchOutcome(e)` appends the byte `0x01` and then does exactly what
`e.Encode` does on that buffer, so when `e.Encode` appends the bytes `bs` the outcome has
appended `0x01` followed by `bs` and nothing else. -/
theorem Encode_discriminant_fidelity {DispatchError : Type}
    (codec : DispatchErrorCodec DispatchError) (buffer : Buffer) :
    (NewDispatchOutcome (sc.Encodable.Empty : sc.Encodable DispatchError)
        = Except.ok [sc.Encodable.Empty] ∧
      DispatchOutcome.Encode codec [sc.Encodable.Empty] buffer = Except.ok (buffer ++ [0])) ∧
    ∀ e : DispatchError,
      NewDispatchOutcome (sc.Encodable.DispatchError e)
        = Except.ok [sc.Encodable.DispatchError e] ∧
      DispatchOutcome.Encode codec [sc.Encodable.DispatchError e] buffer
        = codec.Encode e (buffer ++ [1]) ∧
      ∀ bs : List sc.U8, codec.Encode e (buffer ++ [1]) = Except.ok ((buffer ++ [1]) ++ bs) →
        DispatchOutcome.Encode codec [sc.Encodable.DispatchError e] buffer
          = Except.ok (buffer ++ 1 :: bs) := by
  refine ⟨⟨rfl, rfl⟩, fun e => ⟨rfl, rfl, fun bs h => ?_⟩⟩
  rw [Encode_failure, h, List.append_assoc]
  rfl

/-- The fidelity of C2 at a concrete input: after the bytes `[9]`, the failure outcome of
the one-byte error 7 appends `[1, 7]`. -/
theorem Encode_discriminant_fidelity_witness :
    DispatchOutcome.Encode byteCodec [sc.Encodable.DispatchError (7 : sc.U8)] [9]
      = Except.ok [9, 1, 7] :=
  ((Encode_discriminant_fidelity byteCodec [9]).2 7).2.2 [7] rfl

/-- C3, as the spec states it, fails on the input `[0x02]`: `DecodeDispatchOutcome` does
not return there, neither an outcome nor an error value; it panics. -/
theorem DecodeDispatchOutcome_invalid_counterexample :
    DecodeDispatchOutcome byteCodec [2]
        = Except.error (Panic.message "invalid DispatchOutcome type") ∧
      (∀ r, DecodeDispatchOutcome byteCodec [2] ≠ Except.ok r) :=
  ⟨rfl, fun _ h => by cases h⟩

/-- C3, amended. For every input whose first byte is neither 0 nor 1,
`DecodeDispatchOutcome` panics with "invalid DispatchOutcome type"; it returns no
outcome, success or failure. -/
theorem DecodeDispatchOutcome_invalid_panics {DispatchError : Type}
    (codec : DispatchErrorCodec DispatchError) (b : sc.U8) (rest : Buffer)
    (h0 : b ≠ 0) (h1 : b ≠ 1) :
    DecodeDispatchOutcome codec (b :: rest)
        = Except.error (Panic.message "invalid DispatchOutcome type") ∧
      (∀ r, DecodeDispatchOutcome codec (b :: rest) ≠ Except.ok r) := by
  have h := Decode_invalid codec b rest h0 h1
  refine ⟨h, fun r hr => ?_⟩
  rw [h] at hr
  cases hr

/-- The amended C3 at a concrete input: the bytes `[2, 0, 1]`. -/
theorem DecodeDispatchOutcome_invalid_panics_witness :
    ((2 : sc.U8) ≠ 0 ∧ (2 : sc.U8) ≠ 1) ∧
    DecodeDispatchOutcome byteCodec [2, 0, 1]
        = Except.error (Panic.message "invalid DispatchOutcome type") ∧
      (∀ r, DecodeDispatchOutcome byteCodec [2, 0, 1] ≠ Except.ok r) :=
  ⟨⟨by decide, by decide⟩,
    DecodeDispatchOutcome_invalid_panics byteCodec 2 [0, 1] (by decide) (by decide)⟩

/-- C4, as the spec states it, fails on the nil payload: nil is neither a `sc.Empty` nor a
`DispatchError`, and `NewDispatchOutcome(nil)` returns an outcome (the success outcome)
instead of panicking. -/
theorem NewDispatchOutcome_nil_counterexample :
    (sc.Encodable.nil : sc.Encodable sc.U8) ≠ sc.Encodable.Empty ∧
    (∀ e : sc.U8, (sc.Encodable.nil : sc.Encodable sc.U8) ≠ sc.Encodable.DispatchError e) ∧
    NewDispatchOutcome (sc.Encodable.nil : sc.Encodable sc.U8)
      = Except.ok [sc.Encodable.Empty] :=
  ⟨fun h => (by cases h), fun _ h => (by cases h), rfl⟩

/-- C4, amended. `NewDispatchOutcome(payload)` returns an outcome exactly when the payload
is a `sc.Empty`, the nil interface or a `DispatchError`: the one-payload outcome holding
`sc.Empty{}` in the first two cases and the payload itself in the third. For every other
payload it panics with "invalid DispatchOutcome option" and returns no outcome. -/
theorem NewDispatchOutcome_contract {DispatchError : Type}
    (value : sc.Encodable DispatchError) :
    (value = sc.Encodable.Empty ∨ value = sc.Encodable.nil →
      NewDispatchOutcome value = Except.ok [sc.Encodable.Empty]) ∧
    (∀ e : DispatchError, value = sc.Encodable.DispatchError e →
      NewDispatchOutcome value = Except.ok [sc.Encodable.DispatchError e]) ∧
    ((value ≠ sc.Encodable.Empty ∧ value ≠ sc.Encodable.nil ∧
        ∀ e : DispatchError, value ≠ sc.Encodable.DispatchError e) →
      NewDispatchOutcome value = Except.error (Panic.message "invalid DispatchOutcome option")
        ∧ ∀ o, NewDispatchOutcome value ≠ Except.ok o) := by
  refine ⟨?_, ?_, ?_⟩
  · rintro (h | h) <;> subst h <;> rfl
  · rintro e h
    subst h
    rfl
  · rintro ⟨hE, hN, hD⟩
    cases value with
    | nil => exact absurd rfl hN
    | Empty => exact absurd rfl hE
    | DispatchError e => exact absurd rfl (hD e)
    | other t enc => exact ⟨rfl, fun o h => by cases h⟩

/-- The amended C4 at a concrete input: a payload of another type (tag 3, encoding `[5]`)
makes `NewDispatchOutcome` panic. -/
theorem NewDispatchOutcome_contract_witness :
    NewDispatchOutcome (sc.Encodable.other 3 [5] : sc.Encodable sc.U8)
        = Except.error (Panic.message "invalid DispatchOutcome option") ∧
      ∀ o, NewDispatchOutcome (sc.Encodable.other 3 [5] : sc.Encodable sc.U8) ≠ Except.ok o :=
  (NewDispatchOutcome_contract (sc.Encodable.other 3 [5] : sc.Encodable sc.U8)).2.2
    ⟨fun h => (by cases h), fun h => (by cases h), fun _ h => (by cases h)⟩

/-- C8. Concrete decode scenario: `DecodeDispatchOutcome` on `[0x00]` returns the success
outcome (the one `NewDispatchOutcome(sc.Empty{})` returns); on `0x01` followed by bytes
`bs` on which `DecodeDispatchError` returns `e`, it returns the failure outcome
`NewDispatchOutcome(e)` wrapping exactly that `e`, with the buffer as `DecodeDispatchError`
left it. -/
theorem DecodeDispatchOutcome_scenario {DispatchError : Type}
    (codec : DispatchErrorCodec DispatchError) :
    (∃ o, NewDispatchOutcome (sc.Encodable.Empty : sc.Encodable DispatchError) = Except.ok o ∧
      DecodeDispatchOutcome codec [0] = Except.ok (o, [])) ∧
    ∀ (bs : List sc.U8) (e : DispatchError) (rest : Buffer),
      codec.DecodeDispatchError bs = Except.ok (e, rest) →
      NewDispatchOutcome (sc.Encodable.DispatchError e)
        = Except.ok [sc.Encodable.DispatchError e] ∧
      DecodeDispatchOutcome codec (1 :: bs)
        = Except.ok ([sc.Encodable.DispatchError e], rest) := by
  refine ⟨⟨[sc.Encodable.Empty], rfl, rfl⟩, fun bs e rest h => ⟨rfl, ?_⟩⟩
  rw [Decode_one, h]
  rfl

/-- The scenario of C8 at a concrete input: `[1, 7]` decodes to the failure outcome of the
one-byte error 7. -/
theorem DecodeDispatchOutcome_scenario_witness :
    byteCodec.DecodeDispatchError [7] = Except.ok (7, []) ∧
    DecodeDispatchOutcome byteCodec [1, 7]
      = Except.ok ([sc.Encodable.DispatchError 7], []) :=
  ⟨rfl, ((DecodeDispatchOutcome_scenario byteCodec).2 [7] 7 [] rfl).2⟩

/-- C9. Empty input: on an empty buffer `DecodeDispatchOutcome` fails with the underflow
error of the one-byte read, and returns no outcome. -/
theorem DecodeDispatchOutcome_empty {DispatchError : Type}
    (codec : DispatchErrorCodec DispatchError) :
    DecodeDispatchOutcome codec [] = Except.error Panic.underflow ∧
      ∀ r, DecodeDispatchOutcome codec [] ≠ Except.ok r :=
  ⟨rfl, fun _ h => by cases h⟩

/-! ## The testable module -/

/-- C5. Unsigned-validation default: for every module state, source and call,
`ValidateUnsigned` returns the empty `ValidTransaction` together with the
`TransactionValidityError` built from the `UnknownTransaction` "NoUnsignedValidator"; the
error is not nil (the call never accepts), the result is the same for all arguments and
states, and the module is left as it was. -/
theorem ValidateUnsigned_rejects (P : Primitives) (tm : TestableModule P)
    (source : P.TransactionSource) (call : P.Call) :
    (tm.ValidateUnsigned source call).1
      = (P.emptyValidTransaction,
          some (P.NewTransactionValidityError P.NewUnknownTransactionNoUnsignedValidator)) ∧
    (tm.ValidateUnsigned source call).1.2 ≠ none ∧
    (∀ (tm2 : TestableModule P) (source2 : P.TransactionSource) (call2 : P.Call),
      (tm2.ValidateUnsigned source2 call2).1 = (tm.ValidateUnsigned source call).1) ∧
    (tm.ValidateUnsigned source call).2 = tm :=
  ⟨rfl, fun h => (by cases h), fun _ _ _ => rfl, rfl⟩

/-- C6. Dispatch table completeness: the map that `NewTestingModule().Functions()` returns
has exactly one entry, the test call at key `FunctionTestIndex`; looking up that key
finds the test call and looking up any other index finds nothing. -/
theorem Functions_complete (P : Primitives) :
    ((NewTestingModule P).Functions.1).entries = [(P.FunctionTestIndex, P.NewTestCall)] ∧
    ((NewTestingModule P).Functions.1).len = 1 ∧
    ((NewTestingModule P).Functions.1).get P.FunctionTestIndex = some P.NewTestCall ∧
    ∀ i : sc.U8, i ≠ P.FunctionTestIndex → ((NewTestingModule P).Functions.1).get i = none := by
  refine ⟨rfl, rfl, ?_, fun i hi => ?_⟩
  · simp [NewTestingModule, TestableModule.Functions, GoMap.get, GoMap.set, GoMap.make]
  · simp [NewTestingModule, TestableModule.Functions, GoMap.get, GoMap.set, GoMap.make,
      Ne.symm hi]

/-- The completeness of C6 at a concrete input: with the test call 7 registered at index
255, index 3 is absent. -/
theorem Functions_complete_witness :
    ((NewTestingModule natPrimitives).Functions.1).get 3 = none :=
  (Functions_complete natPrimitives).2.2.2 3 (by decide)

/-- C7. Pre-dispatch neutrality: for every module state and every call, `PreDispatch`
returns `sc.Empty{}` with a nil `TransactionValidityError`, and leaves the module as it
was. -/
theorem PreDispatch_neutral (P : Primitives) (tm : TestableModule P) (call : P.Call) :
    (tm.PreDispatch call).1 = (sc.Empty.mk, none) ∧
    (∀ (tm2 : TestableModule P) (call2 : P.Call),
      (tm2.PreDispatch call2).1 = (tm.PreDispatch call).1) ∧
    (tm.PreDispatch call).2 = tm :=
  ⟨rfl, fun _ _ => rfl, rfl⟩

/-- C10. `Functions()` is stable and free of side effects: for every module, the call
returns the module's table and leaves the module as it was, so a second call returns the
same map; for a module from `NewTestingModule` that map is the one built at
construction. -/
theorem Functions_stable (P : Primitives) (tm : TestableModule P) :
    tm.Functions.1 = tm.functions ∧
    tm.Functions.2 = tm ∧
    tm.Functions.2.Functions.1 = tm.Functions.1 ∧
    (tm.Functions.2.Functions.2).functions = tm.functions ∧
    (NewTestingModule P).Functions.1
      = (GoMap.make : GoMap sc.U8 P.Call).set P.FunctionTestIndex P.NewTestCall :=
  ⟨rfl, rfl, rfl, rfl, rfl⟩

/-! ## Constructed outcomes -/

/-- C11. `Encode` is total on constructed values: every outcome `o` returned by
`NewDispatchOutcome` or by `DecodeDispatchOutcome` holds exactly one payload, whose dynamic
type is `sc.Empty` or `DispatchError`. So in `o.Encode` the index `o[0]` is in bounds and
the branch taken is one of the two encoding branches, never the "invalid DispatchOutcome
type" one: the call does what writing `0x00` does, or what writing `0x01` and then
`e.Encode` does; it returns normally whenever `DispatchError.Encode` does. -/
theorem Encode_total_on_constructed {DispatchError : Type}
    (codec dec : DispatchErrorCodec DispatchError) (o : DispatchOutcome DispatchError)
    (hc : (∃ value : sc.Encodable DispatchError, NewDispatchOutcome value = Except.ok o) ∨
      (∃ buffer rest : Buffer, DecodeDispatchOutcome dec buffer = Except.ok (o, rest))) :
    (∃ value : sc.Encodable DispatchError, o = [value] ∧
      (TypeOf value = some GoType.Empty ∨ TypeOf value = some GoType.DispatchError)) ∧
    (o = [sc.Encodable.Empty] ∨ ∃ e : DispatchError, o = [sc.Encodable.DispatchError e]) ∧
    (∀ buffer : Buffer,
      (o = [sc.Encodable.Empty] ∧ o.Encode codec buffer = Except.ok (buffer ++ [0])) ∨
      (∃ e : DispatchError, o = [sc.Encodable.DispatchError e] ∧
        o.Encode codec buffer = codec.Encode e (buffer ++ [1]))) ∧
    ((∀ (e : DispatchError) (pre : Buffer), ∃ out, codec.Encode e pre = Except.ok out) →
      ∀ buffer : Buffer, ∃ out, o.Encode codec buffer = Except.ok out) := by
  have hshape : o = [sc.Encodable.Empty] ∨
      ∃ e : DispatchError, o = [sc.Encodable.DispatchError e] := by
    rcases hc with ⟨value, hv⟩ | ⟨buffer, rest, hd⟩
    · exact NewDispatchOutcome_shape value o hv
    · exact DecodeDispatchOutcome_shape dec buffer rest o hd
  rcases hshape with h | ⟨e, h⟩
  · subst h
    exact ⟨⟨sc.Encodable.Empty, rfl, Or.inl rfl⟩, Or.inl rfl,
      fun buffer => Or.inl ⟨rfl, rfl⟩, fun _ buffer => ⟨buffer ++ [0], rfl⟩⟩
  · subst h
    refine ⟨⟨sc.Encodable.DispatchError e, rfl, Or.inr rfl⟩, Or.inr ⟨e, rfl⟩,
      fun buffer => Or.inr ⟨e, rfl, rfl⟩, fun htotal buffer => ?_⟩
    obtain ⟨out, hout⟩ := htotal e (buffer ++ [1])
    exact ⟨out, by rw [Encode_failure, hout]⟩

/-- The totality of C11 at a concrete input: the outcome decoded from `[1, 7]` is encoded
after the bytes `[9]` without a panic. -/
theorem Encode_total_on_constructed_witness :
    DecodeDispatchOutcome byteCodec [1, 7]
      = Except.ok ([sc.Encodable.DispatchError 7], []) ∧
    ∃ out, DispatchOutcome.Encode byteCodec [sc.Encodable.DispatchError (7 : sc.U8)] [9]
      = Except.ok out :=
  ⟨rfl, (Encode_total_on_constructed byteCodec byteCodec [sc.Encodable.DispatchError 7]
    (Or.inr ⟨[1, 7], [], rfl⟩)).2.2.2 (fun e pre => ⟨pre ++ [e], rfl⟩) [9]⟩

/-- C12. Decode consumes exactly the encoding: when `DecodeDispatchError` consumes exactly
what `DispatchError.Encode` writes, every outcome `v` that `NewDispatchOutcome` returns is
encoded by `v.Encode` into some bytes `bs`, and for every `rest` `DecodeDispatchOutcome` on
`bs ++ rest` returns `v` and leaves exactly `rest` unread. For success `bs` is the one byte
`0x00`; for failure it is `0x01` followed by the bytes `DecodeDispatchError` consumes. -/
theorem DecodeDispatchOutcome_consumes_exactly {DispatchError : Type}
    (codec : DispatchErrorCodec DispatchError) (hcodec : codec.ConsumesExactly)
    (value : sc.Encodable DispatchError) (v : DispatchOutcome DispatchError)
    (hv : NewDispatchOutcome value = Except.ok v) :
    ∃ bs : List sc.U8, v.Encode codec [] = Except.ok bs ∧
      (∀ rest : Buffer, DecodeDispatchOutcome codec (bs ++ rest) = Except.ok (v, rest)) ∧
      (v = [sc.Encodable.Empty] → bs = [0]) ∧
      (∀ e : DispatchError, v = [sc.Encodable.DispatchError e] →
        ∃ be : List sc.U8, bs = 1 :: be ∧
          ∀ rest : Buffer, codec.DecodeDispatchError (be ++ rest) = Except.ok (e, rest)) := by
  rcases NewDispatchOutcome_shape value v hv with h | ⟨e, h⟩
  · subst h
    refine ⟨[0], rfl, fun rest => Decode_zero codec rest, fun _ => rfl, fun e h => ?_⟩
    cases h
  · subst h
    obtain ⟨be, henc, hdec⟩ := hcodec e [1]
    refine ⟨1 :: be, ?_, fun rest => ?_, fun h => ?_, fun e2 h => ?_⟩
    · rw [Encode_failure]
      exact henc
    · rw [List.cons_append, Decode_one, hdec rest]
      rfl
    · cases h
    · cases h
      exact ⟨be, rfl, hdec⟩

/-- The exact consumption of C12 at a concrete input: after the encoding `[1, 7]` of the
failure outcome of the one-byte error 7, the bytes `[4, 5]` are left unread. -/
theorem DecodeDispatchOutcome_consumes_exactly_witness :
    byteCodec.ConsumesExactly ∧
    ∃ bs : List sc.U8,
      DispatchOutcome.Encode byteCodec [sc.Encodable.DispatchError (7 : sc.U8)] []
        = Except.ok bs ∧
      DecodeDispatchOutcome byteCodec (bs ++ [4, 5])
        = Except.ok ([sc.Encodable.DispatchError 7], [4, 5]) :=
  ⟨byteCodec_ConsumesExactly,
    (DecodeDispatchOutcome_consumes_exactly byteCodec byteCodec_ConsumesExactly
      (sc.Encodable.DispatchError 7) [sc.Encodable.DispatchError 7] rfl).imp
      (fun _ h => ⟨h.1, h.2.1 [4, 5]⟩)⟩

/-- C13. A nil payload is normalised to success: `NewDispatchOutcome(nil)` returns
normally, with the same outcome as `NewDispatchOutcome(sc.Empty{})`, the one holding
`sc.Empty{}`; the encoding of that outcome, by `Encode` into an empty buffer and by
`Bytes`, is the single byte `0x00`. -/
theorem NewDispatchOutcome_nil_normalised {DispatchError : Type}
    (codec : DispatchErrorCodec DispatchError) :
    NewDispatchOutcome (sc.Encodable.nil : sc.Encodable DispatchError)
      = Except.ok [sc.Encodable.Empty] ∧
    NewDispatchOutcome (sc.Encodable.nil : sc.Encodable DispatchError)
      = NewDispatchOutcome (sc.Encodable.Empty : sc.Encodable DispatchError) ∧
    DispatchOutcome.Encode codec [sc.Encodable.Empty] [] = Except.ok [0] ∧
    DispatchOutcome.Bytes codec [sc.Encodable.Empty] = Except.ok [0] :=
  ⟨rfl, rfl, rfl, rfl⟩

/-- C14. `Encode` only appends and `Bytes` agrees with it: when `DispatchError.Encode` only
appends, every outcome `v` that `NewDispatchOutcome` returns has bytes `bs` such that
`v.Bytes()` returns `bs`, `v.Encode` into an empty buffer writes `bs`, and `v.Encode` into a
buffer holding `p` leaves it holding `p ++ bs`. -/
theorem Encode_appends_Bytes {DispatchError : Type}
    (codec : DispatchErrorCodec DispatchError) (happ : codec.Appends)
    (value : sc.Encodable DispatchError) (v : DispatchOutcome DispatchError)
    (hv : NewDispatchOutcome value = Except.ok v) :
    ∃ bs : List sc.U8, v.Bytes codec = Except.ok bs ∧
      v.Encode codec [] = Except.ok bs ∧
      ∀ p : Buffer, v.Encode codec p = Except.ok (p ++ bs) := by
  rcases NewDispatchOutcome_shape value v hv with h | ⟨e, h⟩
  · subst h
    exact ⟨[0], rfl, rfl, fun _ => rfl⟩
  · subst h
    obtain ⟨be, henc⟩ := happ e
    have hp : ∀ p : Buffer,
        DispatchOutcome.Encode codec [sc.Encodable.DispatchError e] p
          = Except.ok (p ++ 1 :: be) := by
      intro p
      rw [Encode_failure, henc, List.append_assoc]
      rfl
    exact ⟨1 :: be, hp [], hp [], hp⟩

/-- The agreement of C14 at a concrete input: the failure outcome of the one-byte error 7
has the bytes `[1, 7]` and appends them to a buffer holding `[9]`. -/
theorem Encode_appends_Bytes_witness :
    byteCodec.Appends ∧
    DispatchOutcome.Bytes byteCodec [sc.Encodable.DispatchError (7 : sc.U8)]
      = Except.ok [1, 7] ∧
    ∃ bs : List sc.U8,
      DispatchOutcome.Bytes byteCodec [sc.Encodable.DispatchError (7 : sc.U8)]
        = Except.ok bs ∧
      DispatchOutcome.Encode byteCodec [sc.Encodable.DispatchError (7 : sc.U8)] [9]
        = Except.ok ([9] ++ bs) :=
  ⟨byteCodec_Appends, rfl,
    (Encode_appends_Bytes byteCodec byteCodec_Appends
      (sc.Encodable.DispatchError 7) [sc.Encodable.DispatchError 7] rfl).imp
      (fun _ h => ⟨h.1, h.2.2 [9]⟩)⟩

end Gosemble
